import Mathlib

/-!
Verification of the realtime data-streaming pipeline (device simulator,
offline outbox, MQTT collector, point shaper) against its specification.

The definitions below are a shallow embedding of the Python source:

* `OfflineQueue` and its operations model `OfflineQueue` in
  `src/devices/device_simulator.py` (a SQLite table keyed by an
  AUTOINCREMENT primary key; the table is modelled as a list of rows and
  the autoincrement counter as `nextId`).
* `flushLoop` / `flushQueue` model `DeviceSimulator._flush_queue`.
* `publishDeviceData` models the branch structure of
  `DeviceSimulator._publish_device_data`.
* `buildPayload` models the flat JSON dictionary built by
  `_publish_device_data`.
* `onMessage` models `MQTTCollector._on_message` (the `queue.Queue`
  with `put_nowait`, and the shared `error_count`).
* `processMessage` / `shapePoint` model `MQTTCollector._process_message`.
* `getNextLabel` models `DetectionLabelSimulator.get_next_label`.

Python floats are modelled as rationals (`Rat`): no floating-point
arithmetic is performed on the modelled paths, values are only carried
around, so the embedding is exact up to representability.  Randomness is
modelled by passing each random draw (`random.random() < 0.9`,
`random.randint(3, 5)`, `random.choice`, publish outcomes) as an explicit
input.
-/

/-- One row of the SQLite `messages` table of the device offline queue:
`(id INTEGER PRIMARY KEY AUTOINCREMENT, topic, payload, qos, ...)`.
The `timestamp`/`created_at` columns are never read back by the code and
are omitted. -/
structure QRecord where
  rid : Nat
  topic : String
  payload : String
  qos : Nat
deriving DecidableEq, Repr

/-- The device-side offline queue (`OfflineQueue` in
`src/devices/device_simulator.py`).  `messages` is the table contents in
insertion order, `nextId` the AUTOINCREMENT counter, `maxQueueSize` the
`self.max_queue_size = 10000` bound. -/
structure OfflineQueue where
  maxQueueSize : Nat
  nextId : Nat
  messages : List QRecord
deriving DecidableEq, Repr

/-- `SELECT MIN(id) FROM messages`. -/
def minRid : List QRecord → Option Nat
  | [] => none
  | r :: rest =>
    match minRid rest with
    | none => some r.rid
    | some m => some (min r.rid m)

/-- `DELETE FROM messages WHERE id = (SELECT MIN(id) FROM messages)`. -/
def evictOldest (l : List QRecord) : List QRecord :=
  match minRid l with
  | none => l
  | some m => l.filter (fun r => r.rid ≠ m)

/-- `OfflineQueue.add_message`: if `count >= self.max_queue_size`, first
delete the lowest-id row, then insert the new row with the next
autoincrement id. -/
def OfflineQueue.addMessage (q : OfflineQueue) (topic payload : String) (qos : Nat) :
    OfflineQueue :=
  let msgs := if q.maxQueueSize ≤ q.messages.length then evictOldest q.messages else q.messages
  { q with messages := msgs ++ [⟨q.nextId, topic, payload, qos⟩], nextId := q.nextId + 1 }

/-- Insert a row into a list that is ascending by `rid`, keeping it
ascending (auxiliary for modelling `ORDER BY id ASC`). -/
def insertByRid (r : QRecord) : List QRecord → List QRecord
  | [] => [r]
  | a :: rest => if r.rid ≤ a.rid then r :: a :: rest else a :: insertByRid r rest

/-- Sort the table rows ascending by `rid` (models the SQL `ORDER BY id
ASC`; insertion sort, chosen so that it reduces by `decide`). -/
def sortByRid : List QRecord → List QRecord
  | [] => []
  | a :: rest => insertByRid a (sortByRid rest)

/-- `OfflineQueue.get_all_messages`:
`SELECT topic, payload, qos FROM messages ORDER BY id ASC`. -/
def OfflineQueue.getAllMessages (q : OfflineQueue) : List QRecord :=
  sortByRid q.messages

/-- `OfflineQueue.clear_queue`: `DELETE FROM messages`. -/
def OfflineQueue.clearQueue (q : OfflineQueue) : OfflineQueue :=
  { q with messages := [] }

/-- `OfflineQueue.get_queue_size`: `SELECT COUNT(*) FROM messages`. -/
def OfflineQueue.getQueueSize (q : OfflineQueue) : Nat :=
  q.messages.length

/-- Well-formedness of the table, maintained by SQLite's PRIMARY KEY
AUTOINCREMENT discipline: row ids are distinct and below the counter. -/
def OfflineQueue.WF (q : OfflineQueue) : Prop :=
  (q.messages.map QRecord.rid).Nodup ∧ ∀ r ∈ q.messages, r.rid < q.nextId

instance (q : OfflineQueue) : Decidable q.WF := by
  unfold OfflineQueue.WF; infer_instance

theorem minRid_eq_none {l : List QRecord} : minRid l = none ↔ l = [] := by
  cases l with
  | nil => simp [minRid]
  | cons r rest =>
    simp only [minRid]
    cases minRid rest <;> simp

theorem minRid_mem {l : List QRecord} {m : Nat} (h : minRid l = some m) :
    ∃ r ∈ l, r.rid = m := by
  induction l generalizing m with
  | nil => simp [minRid] at h
  | cons r rest ih =>
    simp only [minRid] at h
    cases hrest : minRid rest with
    | none => rw [hrest] at h; exact ⟨r, by simp, by simpa using h⟩
    | some m' =>
      rw [hrest] at h
      obtain ⟨r', hr', hrid⟩ := ih hrest
      simp only [Option.some.injEq] at h
      rcases le_total r.rid m' with hle | hle
      · exact ⟨r, by simp, by omega⟩
      · refine ⟨r', by simp [hr'], ?_⟩
        have : min r.rid m' = m' := min_eq_right hle
        omega

theorem minRid_le {l : List QRecord} {m : Nat} (h : minRid l = some m) :
    ∀ r ∈ l, m ≤ r.rid := by
  induction l generalizing m with
  | nil => simp
  | cons r rest ih =>
    intro r' hr'
    simp only [minRid] at h
    cases hrest : minRid rest with
    | none =>
      rw [hrest] at h
      have : rest = [] := minRid_eq_none.mp hrest
      subst this
      simp only [List.mem_cons, List.not_mem_nil, or_false] at hr'
      subst hr'
      have hh : r'.rid = m := by simpa using h
      omega
    | some m' =>
      rw [hrest] at h
      simp only [Option.some.injEq] at h
      rcases List.mem_cons.mp hr' with rfl | hmem
      · omega
      · have := ih hrest r' hmem
        omega

theorem minRid_isSome {l : List QRecord} (h : l ≠ []) : (minRid l).isSome := by
  cases l with
  | nil => exact absurd rfl h
  | cons r rest =>
    simp only [minRid]
    cases minRid rest <;> simp

theorem length_filter_ne_of_nodup {l : List QRecord} {m : Nat}
    (hnd : (l.map QRecord.rid).Nodup) (hmem : ∃ r ∈ l, r.rid = m) :
    (l.filter (fun r => r.rid ≠ m)).length = l.length - 1 := by
  induction l with
  | nil => simp at hmem
  | cons a rest ih =>
    simp only [List.map_cons, List.nodup_cons] at hnd
    by_cases ha : a.rid = m
    · have hrest : rest.filter (fun r => r.rid ≠ m) = rest := by
        rw [List.filter_eq_self]
        intro b hb
        simp only [ne_eq, decide_not, Bool.not_eq_true', decide_eq_false_iff_not]
        intro hbm
        exact absurd (List.mem_map.mpr ⟨b, hb, by omega⟩) hnd.1
      rw [List.filter_cons, if_neg (by simp [ha]), hrest]
      simp
    · obtain ⟨r0, hr0, hrid0⟩ := hmem
      rcases List.mem_cons.mp hr0 with rfl | hmem'
      · exact absurd hrid0 ha
      · have hne : rest ≠ [] := List.ne_nil_of_mem hmem'
        have hlen := ih hnd.2 ⟨r0, hmem', hrid0⟩
        have hpos : 1 ≤ rest.length := List.length_pos.mpr hne
        rw [List.filter_cons, if_pos (by simp [ha])]
        simp only [List.length_cons]
        omega

/-- Deleting the minimum-id row from a table with distinct ids removes
exactly one row. -/
theorem length_evictOldest {l : List QRecord}
    (hnd : (l.map QRecord.rid).Nodup) (hne : l ≠ []) :
    (evictOldest l).length = l.length - 1 := by
  obtain ⟨m, hm⟩ := Option.isSome_iff_exists.mp (minRid_isSome hne)
  unfold evictOldest
  rw [hm]
  exact length_filter_ne_of_nodup hnd (minRid_mem hm)

/-- Appending preserves well-formedness of the outbox table. -/
theorem addMessage_WF {q : OfflineQueue} (hwf : q.WF) (t p : String) (s : Nat) :
    (q.addMessage t p s).WF := by
  obtain ⟨hnd, hlt⟩ := hwf
  unfold OfflineQueue.addMessage OfflineQueue.WF
  have hsub : (if q.maxQueueSize ≤ q.messages.length then evictOldest q.messages
      else q.messages).Sublist q.messages := by
    split
    · unfold evictOldest
      cases minRid q.messages
      · exact List.Sublist.refl _
      · exact List.filter_sublist _
    · exact List.Sublist.refl _
  constructor
  · rw [List.map_append]
    rw [List.nodup_append]
    refine ⟨(hnd.sublist (hsub.map QRecord.rid)), by simp, ?_⟩
    intro x hx
    have hxlt : x < q.nextId := by
      obtain ⟨r, hr, hrx⟩ := List.mem_map.mp hx
      exact hrx ▸ hlt r (hsub.mem hr)
    simp only [List.map_cons, List.map_nil, List.mem_singleton]
    omega
  · intro r hr
    rcases List.mem_append.mp hr with hr | hr
    · exact Nat.lt_succ_of_lt (hlt r (hsub.mem hr))
    · simp only [List.mem_singleton] at hr
      subst hr
      exact Nat.lt_succ_self _

/-- C2: For every outbox append: if the current size is strictly below
`max_capacity` (10,000), the record is inserted with no eviction and the
size increases by one; if the current size equals `max_capacity`, the
lowest-id record is first evicted and then the record is inserted, so the
size remains `max_capacity`; consequently the size never exceeds
`max_capacity`.  (`OfflineQueue.add_message`, device_simulator.py
lines 66-85.) -/
theorem outbox_append_bounded (q : OfflineQueue) (t p : String) (s : Nat)
    (hwf : q.WF) (hmax : q.maxQueueSize = 10000) :
    (q.messages.length < 10000 →
      (q.addMessage t p s).messages.length = q.messages.length + 1 ∧
      ∀ r ∈ q.messages, r ∈ (q.addMessage t p s).messages) ∧
    (q.messages.length = 10000 →
      (q.addMessage t p s).messages.length = 10000 ∧
      ∃ rmin ∈ q.messages, (∀ r' ∈ q.messages, rmin.rid ≤ r'.rid) ∧
        rmin ∉ (q.addMessage t p s).messages) ∧
    (q.messages.length ≤ 10000 → (q.addMessage t p s).messages.length ≤ 10000) := by
  obtain ⟨hnd, hlt⟩ := hwf
  have hb1 : q.messages.length < 10000 →
      (q.addMessage t p s).messages.length = q.messages.length + 1 ∧
      ∀ r ∈ q.messages, r ∈ (q.addMessage t p s).messages := by
    intro hlen
    unfold OfflineQueue.addMessage
    rw [if_neg (by omega)]
    constructor
    · simp
    · intro r hr
      simp [hr]
  have hb2 : q.messages.length = 10000 →
      (q.addMessage t p s).messages.length = 10000 ∧
      ∃ rmin ∈ q.messages, (∀ r' ∈ q.messages, rmin.rid ≤ r'.rid) ∧
        rmin ∉ (q.addMessage t p s).messages := by
    intro hlen
    have hne : q.messages ≠ [] := by
      intro h; rw [h] at hlen; simp at hlen
    obtain ⟨m, hm⟩ := Option.isSome_iff_exists.mp (minRid_isSome hne)
    obtain ⟨rmin, hrmin, hridmin⟩ := minRid_mem hm
    unfold OfflineQueue.addMessage
    rw [if_pos (by omega)]
    constructor
    · rw [List.length_append, length_evictOldest hnd hne]
      simp [hlen]
    · refine ⟨rmin, hrmin, fun r' hr' => hridmin ▸ minRid_le hm r' hr', ?_⟩
      intro hmem
      rcases List.mem_append.mp hmem with hmem | hmem
      · unfold evictOldest at hmem
        rw [hm] at hmem
        have := (List.mem_filter.mp hmem).2
        simp [hridmin] at this
      · simp only [List.mem_singleton] at hmem
        have : rmin.rid < q.nextId := hlt rmin hrmin
        rw [hmem] at this
        simp at this
  refine ⟨hb1, hb2, fun hle => ?_⟩
  rcases Nat.lt_or_ge q.messages.length 10000 with hlen | hlen
  · have := (hb1 hlen).1
    omega
  · have hlen' : q.messages.length = 10000 := le_antisymm hle hlen
    have := (hb2 hlen').1
    omega

/-- Closed instance of `outbox_append_bounded` at a concrete well-formed
queue, exercising the sub-capacity branch. -/
theorem outbox_append_bounded_witness :
    ((⟨10000, 3, [⟨0, "t", "p", 1⟩, ⟨2, "t", "p", 1⟩]⟩ :
        OfflineQueue).addMessage "a" "b" 1).messages.length =
      (⟨10000, 3, [⟨0, "t", "p", 1⟩, ⟨2, "t", "p", 1⟩]⟩ :
        OfflineQueue).messages.length + 1 :=
  ((outbox_append_bounded _ "a" "b" 1 (by decide) rfl).1 (by decide)).1

/-- Outcome of one `self.client.publish(...)` call during the flush loop:
`result.rc == MQTT_ERR_SUCCESS`, some other return code, or a raised
exception.  The latter two are handled identically by `_flush_queue`
(count as failed and continue). -/
inductive PubResult where
  | success
  | failure
  | exn
deriving DecidableEq, Repr

/-- The counters and the publish-attempt trace accumulated by
`DeviceSimulator._flush_queue`'s loop. -/
structure FlushStats where
  flushed : Nat
  failed : Nat
  attempts : List QRecord
deriving DecidableEq, Repr

/-- The `for i, (topic, payload, qos) in enumerate(messages)` loop of
`DeviceSimulator._flush_queue` (lines 262-283).  `connAt i` is the value
of `self.connected` observed at the top of iteration `i` (the flag is
written concurrently by the MQTT callbacks); `pub i` is the outcome of
the publish call at iteration `i`.  On `not self.connected` the loop
breaks; on a publish failure or exception it counts the failure and
continues with the next record. -/
def flushLoop (connAt : Nat → Bool) (pub : Nat → PubResult) :
    Nat → List QRecord → FlushStats
  | _, [] => ⟨0, 0, []⟩
  | i, r :: rest =>
    if connAt i then
      match pub i with
      | .success =>
        let s := flushLoop connAt pub (i + 1) rest
        ⟨s.flushed + 1, s.failed, r :: s.attempts⟩
      | _ =>
        let s := flushLoop connAt pub (i + 1) rest
        ⟨s.flushed, s.failed + 1, r :: s.attempts⟩
    else ⟨0, 0, []⟩

/-- `DeviceSimulator._flush_queue` (lines 252-293): run the loop over the
queued messages, then
`if flushed_count > 0 and self.connected:` and
`if failed_count == 0 or (flushed_count / len(messages)) > 0.9:` clear the
whole queue, else keep it.  `connEnd` is the value of `self.connected`
read after the loop.  The float comparison `flushed/len > 0.9` is modelled
exactly as the rational comparison `10 * flushed > 9 * len`.  Returns the
queue contents after the flush together with the loop's stats. -/
def flushQueue (connAt : Nat → Bool) (pub : Nat → PubResult)
    (msgs : List QRecord) (connEnd : Bool) : List QRecord × FlushStats :=
  let s := flushLoop connAt pub 0 msgs
  if 0 < s.flushed ∧ connEnd = true ∧ (s.failed = 0 ∨ 9 * msgs.length < 10 * s.flushed)
  then ([], s) else (msgs, s)

theorem flushQueue_snd (connAt : Nat → Bool) (pub : Nat → PubResult)
    (msgs : List QRecord) (connEnd : Bool) :
    (flushQueue connAt pub msgs connEnd).2 = flushLoop connAt pub 0 msgs := by
  dsimp only [flushQueue]
  split <;> rfl

theorem flushLoop_attempts_all (connAt : Nat → Bool) (pub : Nat → PubResult) :
    ∀ (i : Nat) (msgs : List QRecord),
      (∀ j, i ≤ j → j < i + msgs.length → connAt j = true) →
      (flushLoop connAt pub i msgs).attempts = msgs := by
  intro i msgs
  induction msgs generalizing i with
  | nil => intro _; rfl
  | cons r rest ih =>
    intro h
    have hi : connAt i = true := h i le_rfl (by simp)
    have hrest := ih (i + 1) (fun j h1 h2 => h j (by omega) (by simp at h2 ⊢; omega))
    simp only [flushLoop, hi, if_true]
    cases pub i <;> simp [hrest]

theorem flushLoop_attempts_break (connAt : Nat → Bool) (pub : Nat → PubResult) :
    ∀ (msgs : List QRecord) (i k : Nat), k ≤ msgs.length →
      (∀ j, i ≤ j → j < i + k → connAt j = true) → connAt (i + k) = false →
      (flushLoop connAt pub i msgs).attempts = msgs.take k := by
  intro msgs
  induction msgs with
  | nil =>
    intro i k hk _ _
    have : k = 0 := by simpa using hk
    subst this
    rfl
  | cons r rest ih =>
    intro i k hk hconn hbreak
    cases k with
    | zero =>
      simp only [Nat.add_zero] at hbreak
      simp [flushLoop, hbreak]
    | succ k' =>
      have hi : connAt i = true := hconn i le_rfl (by omega)
      have hrest := ih (i + 1) k' (by simpa using hk)
        (fun j h1 h2 => hconn j (by omega) (by omega))
        (by have : i + 1 + k' = i + (k' + 1) := by omega
            rw [this]; exact hbreak)
      simp only [flushLoop, hi, if_true, List.take_succ_cons]
      cases pub i <;> simp [hrest]

theorem flushLoop_attempts_prefix (connAt : Nat → Bool) (pub : Nat → PubResult) :
    ∀ (i : Nat) (msgs : List QRecord),
      ∃ n, (flushLoop connAt pub i msgs).attempts = msgs.take n := by
  intro i msgs
  induction msgs generalizing i with
  | nil => exact ⟨0, rfl⟩
  | cons r rest ih =>
    by_cases hi : connAt i = true
    · obtain ⟨n, hn⟩ := ih (i + 1)
      refine ⟨n + 1, ?_⟩
      simp only [flushLoop, hi, if_true, List.take_succ_cons]
      cases pub i <;> simp [hn]
    · refine ⟨0, ?_⟩
      simp only [Bool.not_eq_true] at hi
      simp [flushLoop, hi]

theorem mem_insertByRid {b r : QRecord} {l : List QRecord} :
    b ∈ insertByRid r l ↔ b = r ∨ b ∈ l := by
  induction l with
  | nil => simp [insertByRid]
  | cons a rest ih =>
    simp only [insertByRid]
    split
    · simp [or_comm, or_assoc, or_left_comm]
    · simp only [List.mem_cons, ih]
      tauto

theorem pairwise_insertByRid {r : QRecord} {l : List QRecord}
    (hl : l.Pairwise (fun a b => a.rid ≤ b.rid)) :
    (insertByRid r l).Pairwise (fun a b => a.rid ≤ b.rid) := by
  induction l with
  | nil => simp [insertByRid]
  | cons a rest ih =>
    rw [List.pairwise_cons] at hl
    simp only [insertByRid]
    split
    · rename_i hle
      rw [List.pairwise_cons]
      refine ⟨?_, List.pairwise_cons.mpr hl⟩
      intro b hb
      rcases List.mem_cons.mp hb with rfl | hb
      · exact hle
      · exact le_trans hle (hl.1 b hb)
    · rename_i hgt
      rw [List.pairwise_cons]
      refine ⟨?_, ih hl.2⟩
      intro b hb
      rcases mem_insertByRid.mp hb with rfl | hb
      · omega
      · exact hl.1 b hb

theorem pairwise_sortByRid (l : List QRecord) :
    (sortByRid l).Pairwise (fun a b => a.rid ≤ b.rid) := by
  induction l with
  | nil => simp [sortByRid]
  | cons a rest ih => exact pairwise_insertByRid ih

/-- Eleven queued records with ids 0..10. -/
def msgsEleven : List QRecord :=
  (List.range 11).map (fun i => ⟨i, "device/data/v1", "p", 1⟩)

/-- A publish oracle where only the record at loop index 5 fails. -/
def pubFailAtFive : Nat → PubResult :=
  fun i => if i = 5 then .failure else .success

/-- A publish oracle where the record at loop index 0 fails and the rest
succeed. -/
def pubFailAtZero : Nat → PubResult :=
  fun i => if i = 0 then .failure else .success

/-- Three queued records with ids 0, 1, 2. -/
def msgsThree : List QRecord :=
  [⟨0, "t", "a", 1⟩, ⟨1, "t", "b", 1⟩, ⟨2, "t", "c", 1⟩]

/-- C1 counterexample: with 11 queued records, the publish of the record
at index 5 fails and the other 10 succeed, the connection stays up.  Then
`flushed/len = 10/11 > 0.9`, so `_flush_queue` calls `clear_queue()` and
the queue ends empty — the record whose publish did not succeed has been
removed, contradicting the claim that a record that was not handed off is
never removed from the outbox. -/
theorem flush_clears_unpublished_record :
    (⟨5, "device/data/v1", "p", 1⟩ : QRecord) ∈ msgsEleven ∧
    pubFailAtFive 5 = PubResult.failure ∧
    (flushQueue (fun _ => true) pubFailAtFive msgsEleven true).2.failed = 1 ∧
    (flushQueue (fun _ => true) pubFailAtFive msgsEleven true).1 = [] := by
  decide

/-- C1 (amended): after a replay in which some publish failed, every
queued record (in particular every record whose publish did not succeed)
is still present in the outbox, provided at most 90% of the batch was
flushed (`10 * flushed ≤ 9 * len`); when more than 90% of the batch was
flushed, `_flush_queue` clears the whole queue, failed records included
(see `flush_clears_unpublished_record`). -/
theorem flush_retains_failed_records (connAt : Nat → Bool) (pub : Nat → PubResult)
    (msgs : List QRecord) (connEnd : Bool)
    (hfail : (flushLoop connAt pub 0 msgs).failed ≠ 0)
    (hratio : 10 * (flushLoop connAt pub 0 msgs).flushed ≤ 9 * msgs.length) :
    (flushQueue connAt pub msgs connEnd).1 = msgs := by
  dsimp only [flushQueue]
  rw [if_neg]
  intro ⟨h1, h2, h3⟩
  rcases h3 with h3 | h3
  · exact hfail h3
  · omega

/-- Closed instance of `flush_retains_failed_records`: all 11 publishes
fail, so the queue is left fully intact. -/
theorem flush_retains_failed_records_witness :
    (flushQueue (fun _ => true) (fun _ => PubResult.failure) msgsEleven true).1 =
      msgsEleven :=
  flush_retains_failed_records (fun _ => true) (fun _ => PubResult.failure)
    msgsEleven true (by decide) (by decide)

/-- C3 counterexample: the publish of the first record (index 0) fails,
yet the flush loop still publishes the two records after it
(`attempts` is all three records, not just the first), contradicting the
claim that the first publish failure stops the batch. -/
theorem flush_continues_after_failure :
    pubFailAtZero 0 = PubResult.failure ∧
    (flushLoop (fun _ => true) pubFailAtZero 0 msgsThree).attempts = msgsThree ∧
    (flushLoop (fun _ => true) pubFailAtZero 0 msgsThree).attempts ≠ msgsThree.take 1 := by
  decide

/-- C3 (amended): a publish failure does not stop the replay batch — the
failed record is counted and the loop continues, so if the connection
flag stays true for the whole batch every record is attempted regardless
of publish failures; the batch stops early exactly when the connection
flag is observed false, leaving the records from that index on
unattempted. -/
theorem flush_stops_only_on_connection_loss (connAt : Nat → Bool)
    (pub : Nat → PubResult) (msgs : List QRecord) (k : Nat) :
    ((∀ j, j < msgs.length → connAt j = true) →
      (flushLoop connAt pub 0 msgs).attempts = msgs) ∧
    (k ≤ msgs.length → (∀ j, j < k → connAt j = true) → connAt k = false →
      (flushLoop connAt pub 0 msgs).attempts = msgs.take k) := by
  constructor
  · intro h
    exact flushLoop_attempts_all connAt pub 0 msgs (fun j _ hj => h j (by omega))
  · intro hk h hbreak
    exact flushLoop_attempts_break connAt pub msgs 0 k hk
      (fun j _ hj => h j (by omega)) (by simpa using hbreak)

/-- Closed instance of `flush_stops_only_on_connection_loss`: with the
connection up throughout, all records are attempted even though the first
publish fails; with the connection lost from index 1 on, only the first
record is attempted. -/
theorem flush_stops_only_on_connection_loss_witness :
    (flushLoop (fun _ => true) pubFailAtZero 0 msgsThree).attempts = msgsThree ∧
    (flushLoop (fun j => decide (j < 1)) pubFailAtZero 0 msgsThree).attempts =
      msgsThree.take 1 :=
  ⟨(flush_stops_only_on_connection_loss (fun _ => true) pubFailAtZero msgsThree 0).1
      (fun j _ => rfl),
   (flush_stops_only_on_connection_loss (fun j => decide (j < 1)) pubFailAtZero
        msgsThree 1).2
      (by decide) (fun j hj => by simpa using hj) (by decide)⟩

theorem pairwise_get_lt {l : List QRecord}
    (hp : l.Pairwise (fun a b => a.rid ≤ b.rid))
    (i j : Fin l.length) (h : (l.get i).rid < (l.get j).rid) :
    (i : Nat) < (j : Nat) := by
  rcases lt_trichotomy (i : Nat) (j : Nat) with hij | hij | hij
  · exact hij
  · exfalso
    have : l.get i = l.get j := by congr 1; exact Fin.ext hij
    rw [this] at h
    omega
  · exfalso
    have := List.pairwise_iff_get.mp hp j i hij
    omega

/-- C4: replay preserves outbox FIFO order.  `get_all_messages` returns
the retained records ascending by id, and the flush loop publishes a
prefix of that list in order, so for any two records attempted during
replay, the one with the smaller id is published strictly earlier. -/
theorem replay_fifo_order (q : OfflineQueue) (connAt : Nat → Bool)
    (pub : Nat → PubResult) :
    q.getAllMessages.Pairwise (fun a b => a.rid ≤ b.rid) ∧
    ∀ i j : Fin (flushLoop connAt pub 0 q.getAllMessages).attempts.length,
      ((flushLoop connAt pub 0 q.getAllMessages).attempts.get i).rid <
        ((flushLoop connAt pub 0 q.getAllMessages).attempts.get j).rid →
      (i : Nat) < (j : Nat) := by
  have hsorted : q.getAllMessages.Pairwise (fun a b => a.rid ≤ b.rid) :=
    pairwise_sortByRid q.messages
  refine ⟨hsorted, ?_⟩
  have hp : (flushLoop connAt pub 0 q.getAllMessages).attempts.Pairwise
      (fun a b => a.rid ≤ b.rid) := by
    obtain ⟨n, hn⟩ := flushLoop_attempts_prefix connAt pub 0 q.getAllMessages
    rw [hn]
    exact List.Pairwise.sublist (List.take_sublist n _) hsorted
  exact fun i j h => pairwise_get_lt hp i j h

/-- Closed instance of `replay_fifo_order` at a queue whose stored rows
are out of id order: `get_all_messages` sorts them, and the record with
id 1 is attempted strictly before the record with id 2. -/
theorem replay_fifo_order_witness :
    (⟨10000, 3, [⟨2, "t", "b", 1⟩, ⟨1, "t", "a", 1⟩]⟩ :
        OfflineQueue).getAllMessages.Pairwise (fun a b => a.rid ≤ b.rid) ∧
    (0 : Nat) < 1 :=
  ⟨(replay_fifo_order ⟨10000, 3, [⟨2, "t", "b", 1⟩, ⟨1, "t", "a", 1⟩]⟩
      (fun _ => true) (fun _ => PubResult.success)).1,
   (replay_fifo_order ⟨10000, 3, [⟨2, "t", "b", 1⟩, ⟨1, "t", "a", 1⟩]⟩
      (fun _ => true) (fun _ => PubResult.success)).2
     ⟨0, by decide⟩ ⟨1, by decide⟩ (by decide)⟩

/-- A decoded JSON value (result of `json.loads`), as far as the
collector inspects it: strings, numbers (Python ints and floats, both
modelled as rationals), booleans, null, and objects. -/
inductive JVal where
  | jstr (s : String)
  | jnum (q : Rat)
  | jbool (b : Bool)
  | jnull
  | jobj (fields : List (String × JVal))

/-- Python truthiness (`if not device_id`): `None`/absent, `""`, `0`,
`False`, `{}` are falsy. -/
def truthyJ : JVal → Bool
  | .jstr s => !(s == "")
  | .jnum q => !(q == 0)
  | .jbool b => b
  | .jnull => false
  | .jobj l => !l.isEmpty

/-- An entry of the collector's in-memory `message_queue`: the raw
(undecoded) payload bytes, the `collector_receive_time` stamp, and the
topic — exactly what `_on_message` enqueues. -/
structure RawItem where
  payload : String
  recvTime : Rat
  topic : String
deriving DecidableEq, Repr

/-- `MQTTCollector._on_message` (lines 165-188): stamp the receive time
and `put_nowait` the raw message into the bounded `queue.Queue`; on
`Full` (which `put_nowait` raises iff `0 < maxsize ≤ qsize`), drop the
message and increment the shared `error_count` by one.  Returns the ring
contents and the error counter after the callback. -/
def onMessage (maxsize : Nat) (ring : List RawItem) (errorCount : Nat)
    (payload topic : String) (recvTime : Rat) : List RawItem × Nat :=
  if maxsize = 0 ∨ ring.length < maxsize then
    (ring ++ [⟨payload, recvTime, topic⟩], errorCount)
  else
    (ring, errorCount + 1)

/-- C7: when the ingest ring is full, the arriving message is dropped
(the ring is unchanged, nothing is enqueued), the drop counter is
incremented by exactly one, and the callback returns at once; and when
the ring is not full, the raw payload is enqueued verbatim — the payload
is never decoded on the callback path (the enqueued item is the raw
bytes). -/
theorem ring_full_drops_and_counts (maxsize : Nat) (ring : List RawItem)
    (errorCount : Nat) (payload topic : String) (recvTime : Rat) :
    (0 < maxsize → maxsize ≤ ring.length →
      onMessage maxsize ring errorCount payload topic recvTime =
        (ring, errorCount + 1)) ∧
    (maxsize = 0 ∨ ring.length < maxsize →
      onMessage maxsize ring errorCount payload topic recvTime =
        (ring ++ [⟨payload, recvTime, topic⟩], errorCount)) := by
  constructor
  · intro h1 h2
    unfold onMessage
    rw [if_neg]
    intro h
    rcases h with h | h <;> omega
  · intro h
    unfold onMessage
    rw [if_pos h]

/-- Closed instance of `ring_full_drops_and_counts`: a ring of capacity 2
holding 2 items drops the message and bumps the counter from 7 to 8. -/
theorem ring_full_drops_and_counts_witness :
    onMessage 2 [⟨"a", 0, "t"⟩, ⟨"b", 0, "t"⟩] 7 "c" "t" 1 =
      ([⟨"a", 0, "t"⟩, ⟨"b", 0, "t"⟩], 8) :=
  (ring_full_drops_and_counts 2 [⟨"a", 0, "t"⟩, ⟨"b", 0, "t"⟩] 7 "c" "t" 1).1
    (by decide) (by decide)

/-- A numeric field value written to an InfluxDB point: produced either
by Python `float(...)` (stored as a float field) or by `int(...)`
(stored as an integer field). -/
inductive FieldVal where
  | f (q : Rat)
  | i (n : Int)
deriving DecidableEq, Repr

/-- `true` for a float-typed field value, `false` for an integer-typed
one. -/
def FieldVal.isF : FieldVal → Bool
  | .f _ => true
  | .i _ => false

/-- An InfluxDB point as built by `_process_message`: measurement name,
tags and fields in insertion order.  Tag values are coerced to strings by
the client library; `pyStr` models that coercion (its rendering of
non-string values is not load-bearing for any claim). -/
structure Point where
  measurement : String
  tags : List (String × String)
  fields : List (String × FieldVal)
deriving DecidableEq, Repr

/-- Result of one `_process_message` call: the point handed to
`write_api.write` (if any), the increment applied to `error_count`, and
the boolean return value. -/
structure ShapeResult where
  written : Option Point
  errorDelta : Nat
  retVal : Bool
deriving DecidableEq, Repr

/-- Python `float(x)` on a decoded JSON value.  `pflt` is the (abstract)
parse of a numeric string; `none` models a raised exception, which
`_process_message` catches in its generic `except` branch. -/
def pyFloat (pflt : String → Option Rat) : JVal → Option Rat
  | .jnum q => some q
  | .jstr s => pflt s
  | .jbool b => some (if b then 1 else 0)
  | .jnull => none
  | .jobj _ => none

/-- Python `int(x)` on a decoded JSON value.  On a number it truncates
toward zero; `pint` is the (abstract) parse of an integer string;
`none` models a raised exception. -/
def pyInt (pint : String → Option Int) : JVal → Option Int
  | .jnum q => some (q.num.tdiv (q.den : Int))
  | .jstr s => pint s
  | .jbool b => some (if b then 1 else 0)
  | .jnull => none
  | .jobj _ => none

/-- Python `str(x)` / the Influx client's coercion of a tag value to a
string. -/
def pyStr : JVal → String
  | .jstr s => s
  | .jnum q => toString q
  | .jbool b => if b then "True" else "False"
  | .jnull => "None"
  | .jobj _ => "object"

/-- The `device_id = payload.get('device_id')` / `if not device_id:`
check of `_process_message` (lines 195-199): the identity under which
the message is processed, or `none` when the message is discarded as
missing its identity. -/
def identityOf (payload : List (String × JVal)) : Option JVal :=
  match payload.lookup "device_id" with
  | some v => if truthyJ v then some v else none
  | none => none

/-- `if key in obj: point = point.field(out, float(obj[key]))`:
the float field contributed for `key`, if any; `none` models a raised
conversion error. -/
def floatFieldIf (pflt : String → Option Rat) (obj : List (String × JVal))
    (key out : String) : Option (List (String × FieldVal)) :=
  match obj.lookup key with
  | none => some []
  | some v => (pyFloat pflt v).map fun q => [(out, .f q)]

/-- `if key in obj: point = point.field(out, int(obj[key]))`. -/
def intFieldIf (pint : String → Option Int) (obj : List (String × JVal))
    (key out : String) : Option (List (String × FieldVal)) :=
  match obj.lookup key with
  | none => some []
  | some v => (pyInt pint v).map fun n => [(out, .i n)]

/-- `point.field(out, float(obj.get(key, 0)))` (legacy nested shape:
missing sub-keys default to 0). -/
def floatFieldD (pflt : String → Option Rat) (obj : List (String × JVal))
    (key out : String) : Option (List (String × FieldVal)) :=
  (pyFloat pflt ((obj.lookup key).getD (.jnum 0))).map fun q => [(out, .f q)]

/-- `point.field(out, int(obj.get(key, 0)))` (legacy nested shape). -/
def intFieldD (pint : String → Option Int) (obj : List (String × JVal))
    (key out : String) : Option (List (String × FieldVal)) :=
  (pyInt pint ((obj.lookup key).getD (.jnum 0))).map fun n => [(out, .i n)]

/-- Dispatch on a nested-object value: absent key contributes nothing,
an object is processed by `f`, and a non-object value makes the Python
code raise (modelled as `none`). -/
def lookupObjFields (f : List (String × JVal) → Option (List (String × FieldVal))) :
    Option JVal → Option (List (String × FieldVal))
  | none => some []
  | some (.jobj o) => f o
  | some _ => none

/-- Fields written from the legacy `telemetry.memory` object
(lines 225-230). -/
def memoryFields (pflt : String → Option Rat) (pint : String → Option Int)
    (mem : List (String × JVal)) : Option (List (String × FieldVal)) := do
  let a ← intFieldD pint mem "total" "memory_total"
  let b ← intFieldD pint mem "used" "memory_used"
  let c ← intFieldD pint mem "available" "memory_available"
  let d ← floatFieldD pflt mem "percent" "memory_percent"
  some (a ++ b ++ c ++ d)

/-- Fields written from the legacy `telemetry.disk` object
(lines 231-236). -/
def diskFields (pflt : String → Option Rat) (pint : String → Option Int)
    (disk : List (String × JVal)) : Option (List (String × FieldVal)) := do
  let a ← intFieldD pint disk "total" "disk_total"
  let b ← intFieldD pint disk "used" "disk_used"
  let c ← intFieldD pint disk "free" "disk_free"
  let d ← floatFieldD pflt disk "percent" "disk_percent"
  some (a ++ b ++ c ++ d)

/-- Fields written from the legacy `telemetry.network` object
(lines 237-240). -/
def networkFields (pint : String → Option Int)
    (net : List (String × JVal)) : Option (List (String × FieldVal)) := do
  let a ← intFieldD pint net "bytes_sent" "network_bytes_sent"
  let b ← intFieldD pint net "bytes_recv" "network_bytes_recv"
  some (a ++ b)

/-- Fields written from the legacy nested `telemetry` object
(lines 218-240).  A non-object value where an object is expected makes
the Python code raise (handled by the generic `except` branch), modelled
as `none`. -/
def telemetryFields (pflt : String → Option Rat) (pint : String → Option Int)
    (tele : List (String × JVal)) : Option (List (String × FieldVal)) := do
  let a ← floatFieldIf pflt tele "cpu_usage" "cpu_usage"
  let b ← floatFieldIf pflt tele "ram_usage" "ram_usage"
  let c ← lookupObjFields (memoryFields pflt pint) (tele.lookup "memory")
  let d ← lookupObjFields (diskFields pflt pint) (tele.lookup "disk")
  let e ← lookupObjFields (networkFields pint) (tele.lookup "network")
  some (a ++ b ++ c ++ d ++ e)

/-- Fields written from the new flat payload shape (lines 242-272). -/
def flatFields (pflt : String → Option Rat) (pint : String → Option Int)
    (payload : List (String × JVal)) : Option (List (String × FieldVal)) := do
  let a ← floatFieldIf pflt payload "cpu_usage" "cpu_usage"
  let b ← floatFieldIf pflt payload "ram_usage" "ram_usage"
  let c ← intFieldIf pint payload "memory_total" "memory_total"
  let d ← intFieldIf pint payload "memory_used" "memory_used"
  let e ← intFieldIf pint payload "memory_available" "memory_available"
  let f ← floatFieldIf pflt payload "memory_percent" "memory_percent"
  let g ← intFieldIf pint payload "disk_total" "disk_total"
  let h ← intFieldIf pint payload "disk_used" "disk_used"
  let i ← intFieldIf pint payload "disk_free" "disk_free"
  let j ← floatFieldIf pflt payload "disk_percent" "disk_percent"
  let k ← intFieldIf pint payload "network_bytes_sent" "network_bytes_sent"
  let l ← intFieldIf pint payload "network_bytes_recv" "network_bytes_recv"
  some (a ++ b ++ c ++ d ++ e ++ f ++ g ++ h ++ i ++ j ++ k ++ l)

/-- The telemetry body of the point: the nested legacy shape if a
`telemetry` key is present (raising — modelled `none` — when its value is
not an object), the flat shape otherwise (lines 217-272). -/
def bodyFields (pflt : String → Option Rat) (pint : String → Option Int)
    (payload : List (String × JVal)) : Option (List (String × FieldVal)) :=
  match payload.lookup "telemetry" with
  | some (.jobj tele) => telemetryFields pflt pint tele
  | some _ => none
  | none => flatFields pflt pint payload

/-- Detection handling (lines 275-284): legacy nested `detection` object
(tag from `detection.get("label", "unknown")`, confidence field from
`detection.get("confidence", 0.0)`), else flat `detection_label` tag with
optional `detection_confidence` field.  Returns the extra tags and extra
fields. -/
def detectionParts (pflt : String → Option Rat) (payload : List (String × JVal)) :
    Option (List (String × String) × List (String × FieldVal)) :=
  match payload.lookup "detection" with
  | some (.jobj det) =>
      (pyFloat pflt ((det.lookup "confidence").getD (.jnum 0))).map fun q =>
        ([("detection_label", pyStr ((det.lookup "label").getD (.jstr "unknown")))],
         [("detection_confidence", .f q)])
  | some _ => none
  | none =>
    match payload.lookup "detection_label" with
    | none => some ([], [])
    | some v =>
        (floatFieldIf pflt payload "detection_confidence" "detection_confidence").map
          fun fs => ([("detection_label", pyStr v)], fs)

/-- The point built by `_process_message` (lines 202-284) for a payload
whose identity check has passed: tags `device_id` and
`collector="python"`, the `collector_receive_time` field, then
`publish_timestamp`, `speed`, the telemetry fields (nested legacy shape
if a `telemetry` key is present, flat shape otherwise) and the detection
parts, in source order.  `none` models a raised conversion error. -/
def shapePoint (pflt : String → Option Rat) (pint : String → Option Int)
    (payload : List (String × JVal)) (recvTime : Rat) (did : JVal) :
    Option Point := do
  let ts ← floatFieldIf pflt payload "timestamp" "publish_timestamp"
  let sp ← floatFieldIf pflt payload "speed" "speed"
  let body ← bodyFields pflt pint payload
  let det ← detectionParts pflt payload
  some { measurement := "device_data",
         tags := [("device_id", pyStr did), ("collector", "python")] ++ det.1,
         fields := [("collector_receive_time", .f recvTime)] ++ ts ++ sp ++ body
           ++ det.2 }

/-- `MQTTCollector._process_message` (lines 190-313) on an
already-JSON-decoded payload object: discard silently when the identity
check fails (lines 197-199 — note: no counter increment); on a conversion
error, increment `error_count` by one and write nothing; otherwise hand
the point to `write_api.write` and return `True`. -/
def shapeOutcome : Option Point → ShapeResult
  | none => ⟨none, 1, false⟩
  | some pt => ⟨some pt, 0, true⟩

def processMessage (pflt : String → Option Rat) (pint : String → Option Int)
    (payload : List (String × JVal)) (recvTime : Rat) : ShapeResult :=
  match identityOf payload with
  | none => ⟨none, 0, false⟩
  | some did => shapeOutcome (shapePoint pflt pint payload recvTime did)

/-- The fixed numeric type with which `_process_message` writes each
recognized field name: `some true` = float (`float(...)`), `some false`
= integer (`int(...)`), `none` = never written as a field by the shaper. -/
def fieldSchema : String → Option Bool
  | "collector_receive_time" => some true
  | "publish_timestamp" => some true
  | "speed" => some true
  | "cpu_usage" => some true
  | "ram_usage" => some true
  | "memory_total" => some false
  | "memory_used" => some false
  | "memory_available" => some false
  | "memory_percent" => some true
  | "disk_total" => some false
  | "disk_used" => some false
  | "disk_free" => some false
  | "disk_percent" => some true
  | "network_bytes_sent" => some false
  | "network_bytes_recv" => some false
  | "detection_confidence" => some true
  | _ => none

/-- Every field in the list is written with its schema type. -/
def SchemaOK (fs : List (String × FieldVal)) : Prop :=
  ∀ x ∈ fs, fieldSchema x.1 = some x.2.isF

theorem schemaOK_nil : SchemaOK [] := by
  intro x hx
  simp at hx

theorem schemaOK_append {a b : List (String × FieldVal)}
    (ha : SchemaOK a) (hb : SchemaOK b) : SchemaOK (a ++ b) := by
  intro x hx
  rcases List.mem_append.mp hx with h | h
  · exact ha x h
  · exact hb x h

theorem schemaOK_floatFieldIf {pflt : String → Option Rat}
    {obj : List (String × JVal)} {key out : String}
    {fs : List (String × FieldVal)}
    (hout : fieldSchema out = some true)
    (h : floatFieldIf pflt obj key out = some fs) : SchemaOK fs := by
  unfold floatFieldIf at h
  cases hl : obj.lookup key with
  | none =>
    rw [hl] at h
    simp only [Option.some.injEq] at h
    subst h
    exact schemaOK_nil
  | some v =>
    rw [hl] at h
    simp only [Option.map_eq_some'] at h
    obtain ⟨q, _, hfs⟩ := h
    subst hfs
    intro x hx
    simp only [List.mem_singleton] at hx
    subst hx
    simpa [FieldVal.isF] using hout

theorem schemaOK_intFieldIf {pint : String → Option Int}
    {obj : List (String × JVal)} {key out : String}
    {fs : List (String × FieldVal)}
    (hout : fieldSchema out = some false)
    (h : intFieldIf pint obj key out = some fs) : SchemaOK fs := by
  unfold intFieldIf at h
  cases hl : obj.lookup key with
  | none =>
    rw [hl] at h
    simp only [Option.some.injEq] at h
    subst h
    exact schemaOK_nil
  | some v =>
    rw [hl] at h
    simp only [Option.map_eq_some'] at h
    obtain ⟨n, _, hfs⟩ := h
    subst hfs
    intro x hx
    simp only [List.mem_singleton] at hx
    subst hx
    simpa [FieldVal.isF] using hout

theorem schemaOK_floatFieldD {pflt : String → Option Rat}
    {obj : List (String × JVal)} {key out : String}
    {fs : List (String × FieldVal)}
    (hout : fieldSchema out = some true)
    (h : floatFieldD pflt obj key out = some fs) : SchemaOK fs := by
  unfold floatFieldD at h
  simp only [Option.map_eq_some'] at h
  obtain ⟨q, _, hfs⟩ := h
  subst hfs
  intro x hx
  simp only [List.mem_singleton] at hx
  subst hx
  simpa [FieldVal.isF] using hout

theorem schemaOK_intFieldD {pint : String → Option Int}
    {obj : List (String × JVal)} {key out : String}
    {fs : List (String × FieldVal)}
    (hout : fieldSchema out = some false)
    (h : intFieldD pint obj key out = some fs) : SchemaOK fs := by
  unfold intFieldD at h
  simp only [Option.map_eq_some'] at h
  obtain ⟨n, _, hfs⟩ := h
  subst hfs
  intro x hx
  simp only [List.mem_singleton] at hx
  subst hx
  simpa [FieldVal.isF] using hout

theorem schemaOK_memoryFields {pflt : String → Option Rat}
    {pint : String → Option Int} {mem : List (String × JVal)}
    {fs : List (String × FieldVal)}
    (h : memoryFields pflt pint mem = some fs) : SchemaOK fs := by
  unfold memoryFields at h
  simp only [bind, Option.bind_eq_some, Option.some.injEq] at h
  obtain ⟨a, ha, b, hb, c, hc, d, hd, hfs⟩ := h
  subst hfs
  exact schemaOK_append (schemaOK_append (schemaOK_append
    (schemaOK_intFieldD (by decide) ha) (schemaOK_intFieldD (by decide) hb))
    (schemaOK_intFieldD (by decide) hc)) (schemaOK_floatFieldD (by decide) hd)

theorem schemaOK_diskFields {pflt : String → Option Rat}
    {pint : String → Option Int} {disk : List (String × JVal)}
    {fs : List (String × FieldVal)}
    (h : diskFields pflt pint disk = some fs) : SchemaOK fs := by
  unfold diskFields at h
  simp only [bind, Option.bind_eq_some, Option.some.injEq] at h
  obtain ⟨a, ha, b, hb, c, hc, d, hd, hfs⟩ := h
  subst hfs
  exact schemaOK_append (schemaOK_append (schemaOK_append
    (schemaOK_intFieldD (by decide) ha) (schemaOK_intFieldD (by decide) hb))
    (schemaOK_intFieldD (by decide) hc)) (schemaOK_floatFieldD (by decide) hd)

theorem schemaOK_networkFields {pint : String → Option Int}
    {net : List (String × JVal)} {fs : List (String × FieldVal)}
    (h : networkFields pint net = some fs) : SchemaOK fs := by
  unfold networkFields at h
  simp only [bind, Option.bind_eq_some, Option.some.injEq] at h
  obtain ⟨a, ha, b, hb, hfs⟩ := h
  subst hfs
  exact schemaOK_append (schemaOK_intFieldD (by decide) ha)
    (schemaOK_intFieldD (by decide) hb)

theorem schemaOK_lookupObjFields
    {f : List (String × JVal) → Option (List (String × FieldVal))}
    {v : Option JVal} {fs : List (String × FieldVal)}
    (hf : ∀ o fs', f o = some fs' → SchemaOK fs')
    (h : lookupObjFields f v = some fs) : SchemaOK fs := by
  cases v with
  | none =>
    simp only [lookupObjFields, Option.some.injEq] at h
    subst h
    exact schemaOK_nil
  | some w =>
    cases w with
    | jobj o => exact hf o fs h
    | jstr s => simp [lookupObjFields] at h
    | jnum q => simp [lookupObjFields] at h
    | jbool b => simp [lookupObjFields] at h
    | jnull => simp [lookupObjFields] at h

theorem schemaOK_telemetryFields {pflt : String → Option Rat}
    {pint : String → Option Int} {tele : List (String × JVal)}
    {fs : List (String × FieldVal)}
    (h : telemetryFields pflt pint tele = some fs) : SchemaOK fs := by
  unfold telemetryFields at h
  simp only [bind, Option.bind_eq_some, Option.some.injEq] at h
  obtain ⟨a, ha, b, hb, c, hc, d, hd, e, he, hfs⟩ := h
  subst hfs
  exact schemaOK_append (schemaOK_append (schemaOK_append (schemaOK_append
    (schemaOK_floatFieldIf (by decide) ha) (schemaOK_floatFieldIf (by decide) hb))
    (schemaOK_lookupObjFields (fun _ _ => schemaOK_memoryFields) hc))
    (schemaOK_lookupObjFields (fun _ _ => schemaOK_diskFields) hd))
    (schemaOK_lookupObjFields (fun _ _ => schemaOK_networkFields) he)

set_option maxHeartbeats 1000000 in
theorem schemaOK_flatFields {pflt : String → Option Rat}
    {pint : String → Option Int} {payload : List (String × JVal)}
    {fs : List (String × FieldVal)}
    (h : flatFields pflt pint payload = some fs) : SchemaOK fs := by
  unfold flatFields at h
  simp only [bind, Option.bind_eq_some, Option.some.injEq] at h
  obtain ⟨a, ha, b, hb, c, hc, d, hd, e, he, f, hf, g, hg, h', hh, i, hi, j, hj,
    k, hk, l, hl, hfs⟩ := h
  subst hfs
  exact schemaOK_append (schemaOK_append (schemaOK_append (schemaOK_append
    (schemaOK_append (schemaOK_append (schemaOK_append (schemaOK_append
    (schemaOK_append (schemaOK_append (schemaOK_append
    (schemaOK_floatFieldIf (by decide) ha)
    (schemaOK_floatFieldIf (by decide) hb))
    (schemaOK_intFieldIf (by decide) hc))
    (schemaOK_intFieldIf (by decide) hd))
    (schemaOK_intFieldIf (by decide) he))
    (schemaOK_floatFieldIf (by decide) hf))
    (schemaOK_intFieldIf (by decide) hg))
    (schemaOK_intFieldIf (by decide) hh))
    (schemaOK_intFieldIf (by decide) hi))
    (schemaOK_floatFieldIf (by decide) hj))
    (schemaOK_intFieldIf (by decide) hk))
    (schemaOK_intFieldIf (by decide) hl)

theorem schemaOK_bodyFields {pflt : String → Option Rat}
    {pint : String → Option Int} {payload : List (String × JVal)}
    {fs : List (String × FieldVal)}
    (h : bodyFields pflt pint payload = some fs) : SchemaOK fs := by
  unfold bodyFields at h
  cases ht : payload.lookup "telemetry" with
  | none =>
    rw [ht] at h
    exact schemaOK_flatFields h
  | some v =>
    rw [ht] at h
    cases v with
    | jobj tele => exact schemaOK_telemetryFields h
    | jstr s => cases h
    | jnum q => cases h
    | jbool b => cases h
    | jnull => cases h

theorem schemaOK_detectionParts {pflt : String → Option Rat}
    {payload : List (String × JVal)}
    {pr : List (String × String) × List (String × FieldVal)}
    (h : detectionParts pflt payload = some pr) : SchemaOK pr.2 := by
  unfold detectionParts at h
  cases hd : payload.lookup "detection" with
  | some v =>
    rw [hd] at h
    cases v with
    | jobj det =>
      simp only [Option.map_eq_some'] at h
      obtain ⟨q, _, hpr⟩ := h
      subst hpr
      intro x hx
      simp only [List.mem_singleton] at hx
      subst hx
      rfl
    | jstr s => cases h
    | jnum q => cases h
    | jbool b' => cases h
    | jnull => cases h
  | none =>
    rw [hd] at h
    cases hl : payload.lookup "detection_label" with
    | none =>
      rw [hl] at h
      simp only [Option.some.injEq] at h
      subst h
      exact schemaOK_nil
    | some v =>
      rw [hl] at h
      simp only [Option.map_eq_some'] at h
      obtain ⟨fs, hfs, hpr⟩ := h
      subst hpr
      exact schemaOK_floatFieldIf (by decide) hfs

theorem schemaOK_shapePoint {pflt : String → Option Rat}
    {pint : String → Option Int} {payload : List (String × JVal)}
    {recvTime : Rat} {did : JVal} {pt : Point}
    (h : shapePoint pflt pint payload recvTime did = some pt) :
    SchemaOK pt.fields := by
  unfold shapePoint at h
  simp only [bind, Option.bind_eq_some, Option.some.injEq] at h
  obtain ⟨ts, hts, sp, hsp, body, hbody, det, hdet, hpt⟩ := h
  subst hpt
  have hcrt : SchemaOK [("collector_receive_time", FieldVal.f recvTime)] := by
    intro x hx
    simp only [List.mem_singleton] at hx
    subst hx
    rfl
  exact schemaOK_append (schemaOK_append (schemaOK_append (schemaOK_append hcrt
    (schemaOK_floatFieldIf (by decide) hts)) (schemaOK_floatFieldIf (by decide) hsp))
    (schemaOK_bodyFields hbody)) (schemaOK_detectionParts hdet)

/-- C6: every field written to a point by `_process_message` carries the
single fixed numeric type given by `fieldSchema` — floats for `speed`,
`cpu_usage`, `ram_usage`, `memory_percent`, `disk_percent`,
`detection_confidence` (and the timestamps), integers for
`memory_total/used/available`, `disk_total/used/free`,
`network_bytes_sent/recv`.  Because `fieldSchema` does not depend on the
payload shape, the type of each field is identical whether the payload
arrives in the flat shape or the nested legacy shape. -/
theorem field_types_stable (pflt : String → Option Rat)
    (pint : String → Option Int) (payload : List (String × JVal))
    (recvTime : Rat) (pt : Point)
    (h : (processMessage pflt pint payload recvTime).written = some pt) :
    ∀ x ∈ pt.fields, fieldSchema x.1 = some x.2.isF := by
  unfold processMessage at h
  revert h
  cases hid : identityOf payload with
  | none =>
    intro h
    simp at h
  | some did =>
    intro h
    have h' : (shapeOutcome (shapePoint pflt pint payload recvTime did)).written =
        some pt := h
    cases hs : shapePoint pflt pint payload recvTime did with
    | none =>
      rw [hs] at h'
      simp [shapeOutcome] at h'
    | some pt' =>
      rw [hs] at h'
      simp only [shapeOutcome, Option.some.injEq] at h'
      subst h'
      exact schemaOK_shapePoint hs

/-- Closed instance of `field_types_stable` on a concrete flat payload:
`speed` is written as a float and `memory_total` as an integer. -/
theorem field_types_stable_witness :
    fieldSchema "speed" = some (FieldVal.f 5).isF ∧
    fieldSchema "memory_total" = some (FieldVal.i 7).isF :=
  ⟨field_types_stable (fun _ => none) (fun _ => none)
      [("device_id", .jstr "v"), ("speed", .jnum 5), ("memory_total", .jnum 7)] 0
      ⟨"device_data", [("device_id", "v"), ("collector", "python")],
        [("collector_receive_time", .f 0), ("speed", .f 5), ("memory_total", .i 7)]⟩
      rfl ("speed", .f 5) (by decide),
   field_types_stable (fun _ => none) (fun _ => none)
      [("device_id", .jstr "v"), ("speed", .jnum 5), ("memory_total", .jnum 7)] 0
      ⟨"device_data", [("device_id", "v"), ("collector", "python")],
        [("collector_receive_time", .f 0), ("speed", .f 5), ("memory_total", .i 7)]⟩
      rfl ("memory_total", .i 7) (by decide)⟩

/-- C8 counterexample: a successfully decoded payload without
`device_id` is discarded (nothing written, `False` returned) but the
error counter is NOT incremented — `_process_message` just prints a
warning and returns at lines 197-199 — contradicting the claim that a
counter is incremented for `MissingIdentity`. -/
theorem missing_device_id_not_counted :
    processMessage (fun _ => none) (fun _ => none) [("speed", JVal.jnum 1)] 0 =
      { written := none, errorDelta := 0, retVal := false } ∧
    ¬ 0 < (processMessage (fun _ => none) (fun _ => none)
        [("speed", JVal.jnum 1)] 0).errorDelta := by
  constructor
  · rfl
  · intro hcon
    have h0 : (processMessage (fun _ => none) (fun _ => none)
        [("speed", JVal.jnum 1)] 0).errorDelta = 0 := rfl
    omega

/-- C8 (amended): for every successfully decoded payload that fails the
identity check (`device_id` absent or falsy), `_process_message` writes
no point and returns `False`, but increments no error counter. -/
theorem missing_device_id_discards (pflt : String → Option Rat)
    (pint : String → Option Int) (payload : List (String × JVal))
    (recvTime : Rat) (h : identityOf payload = none) :
    processMessage pflt pint payload recvTime =
      { written := none, errorDelta := 0, retVal := false } := by
  unfold processMessage
  rw [h]

/-- Closed instance of `missing_device_id_discards` at a concrete
payload lacking `device_id`. -/
theorem missing_device_id_discards_witness :
    processMessage (fun _ => none) (fun _ => none)
        [("cpu_usage", JVal.jnum 4)] 2 =
      { written := none, errorDelta := 0, retVal := false } :=
  missing_device_id_discards (fun _ => none) (fun _ => none)
    [("cpu_usage", JVal.jnum 4)] 2 rfl

/-- The `rc` of a publish call in `_publish_device_data`:
`MQTT_ERR_SUCCESS`, `MQTT_ERR_NO_CONN`, or any other error code. -/
inductive PublishRc where
  | success
  | noConn
  | otherErr
deriving DecidableEq, Repr

/-- A publish attempt either returns a result object with an `rc`, or
raises an exception. -/
inductive PublishAttempt where
  | ok (rc : PublishRc)
  | exn
deriving DecidableEq, Repr

/-- The observable effect of one `_publish_device_data` tick: the
messages handed to the broker (publish calls that returned
`MQTT_ERR_SUCCESS`), the offline queue afterwards, and the
`self.connected` flag afterwards. -/
structure DeviceEffect where
  sent : List (String × String)
  queueAfter : OfflineQueue
  connectedAfter : Bool
deriving DecidableEq, Repr

/-- The branch structure of `DeviceSimulator._publish_device_data`
(lines 344-366): if `self.connected`, attempt the publish — on success
the message is handed off; on `MQTT_ERR_NO_CONN` clear the flag and
queue; on any other rc queue (flag untouched); on an exception queue and
clear the flag.  If not connected, queue directly. -/
def publishDeviceData (connected : Bool) (att : PublishAttempt)
    (topic message : String) (q : OfflineQueue) : DeviceEffect :=
  if connected then
    match att with
    | .ok .success => ⟨[(topic, message)], q, true⟩
    | .ok .noConn => ⟨[], q.addMessage topic message 1, false⟩
    | .ok .otherErr => ⟨[], q.addMessage topic message 1, true⟩
    | .exn => ⟨[], q.addMessage topic message 1, false⟩
  else ⟨[], q.addMessage topic message 1, false⟩

theorem addMessage_mem (q : OfflineQueue) (t p : String) (s : Nat) :
    (⟨q.nextId, t, p, s⟩ : QRecord) ∈ (q.addMessage t p s).messages := by
  unfold OfflineQueue.addMessage
  simp

/-- C5: on every publish tick, in every branch (connected success,
not-connected rc, other publish failure, exception, disconnected state)
the serialized message is either handed to the broker (and the outbox
untouched) or appended to the outbox — never silently dropped.  The two
disjuncts are mutually exclusive (`sent` is `[(topic, message)]` in the
first and `[]` in the second), so exactly one of them holds. -/
theorem publish_handoff_or_queue (connected : Bool) (att : PublishAttempt)
    (topic message : String) (q : OfflineQueue) :
    ((publishDeviceData connected att topic message q).sent = [(topic, message)] ∧
      (publishDeviceData connected att topic message q).queueAfter = q) ∨
    ((publishDeviceData connected att topic message q).sent = [] ∧
      ∃ r ∈ (publishDeviceData connected att topic message q).queueAfter.messages,
        r.topic = topic ∧ r.payload = message) := by
  cases connected with
  | false =>
    right
    exact ⟨rfl, ⟨q.nextId, topic, message, 1⟩, addMessage_mem q topic message 1,
      rfl, rfl⟩
  | true =>
    cases att with
    | exn =>
      right
      exact ⟨rfl, ⟨q.nextId, topic, message, 1⟩, addMessage_mem q topic message 1,
        rfl, rfl⟩
    | ok rc =>
      cases rc with
      | success => left; exact ⟨rfl, rfl⟩
      | noConn =>
        right
        exact ⟨rfl, ⟨q.nextId, topic, message, 1⟩, addMessage_mem q topic message 1,
          rfl, rfl⟩
      | otherErr =>
        right
        exact ⟨rfl, ⟨q.nextId, topic, message, 1⟩, addMessage_mem q topic message 1,
          rfl, rfl⟩

/-- The `Sample` data gathered by one tick of
`DeviceSimulator._publish_device_data` (speed, telemetry snapshot,
detection label), before serialization. -/
structure Sample where
  timestamp : Rat
  datetimeIso : String
  speed : Rat
  cpuUsage : Rat
  ramUsage : Rat
  memoryTotal : Int
  memoryUsed : Int
  memoryAvailable : Int
  memoryPercent : Rat
  diskTotal : Int
  diskUsed : Int
  diskFree : Int
  diskPercent : Rat
  networkBytesSent : Int
  networkBytesRecv : Int
  detectionLabel : String
  detectionConfidence : Rat
  detectionTimestamp : Rat

/-- The flat JSON payload dictionary built by `_publish_device_data`
(lines 308-340), keys in source order. -/
def buildPayload (deviceId : String) (s : Sample) : List (String × JVal) :=
  [("device_id", .jstr deviceId),
   ("timestamp", .jnum s.timestamp),
   ("datetime", .jstr s.datetimeIso),
   ("speed", .jnum s.speed),
   ("cpu_usage", .jnum s.cpuUsage),
   ("ram_usage", .jnum s.ramUsage),
   ("memory_total", .jnum (s.memoryTotal : Rat)),
   ("memory_used", .jnum (s.memoryUsed : Rat)),
   ("memory_available", .jnum (s.memoryAvailable : Rat)),
   ("memory_percent", .jnum s.memoryPercent),
   ("disk_total", .jnum (s.diskTotal : Rat)),
   ("disk_used", .jnum (s.diskUsed : Rat)),
   ("disk_free", .jnum (s.diskFree : Rat)),
   ("disk_percent", .jnum s.diskPercent),
   ("network_bytes_sent", .jnum (s.networkBytesSent : Rat)),
   ("network_bytes_recv", .jnum (s.networkBytesRecv : Rat)),
   ("detection_label", .jstr s.detectionLabel),
   ("detection_confidence", .jnum s.detectionConfidence),
   ("detection_timestamp", .jnum s.detectionTimestamp)]

/-- The 18 flat telemetry keys accompanying `device_id` in every
device-built payload. -/
def flatPayloadKeys : List String :=
  ["timestamp", "datetime", "speed", "cpu_usage", "ram_usage",
   "memory_total", "memory_used", "memory_available", "memory_percent",
   "disk_total", "disk_used", "disk_free", "disk_percent",
   "network_bytes_sent", "network_bytes_recv",
   "detection_label", "detection_confidence", "detection_timestamp"]

/-- C10: every payload built by the device's publish path contains the
key `device_id` bound to the device's own id, together with all the flat
telemetry keys; consequently, for a device whose id is non-empty (all of
this system's devices — `run_devices.py` names them `vehicle_01` …
`vehicle_10` — have non-empty ids; an empty id would be falsy under
Python's `if not device_id`), the collector's missing-identity discard
branch is not taken. -/
theorem device_payload_has_identity (d : String) (s : Sample) :
    (buildPayload d s).lookup "device_id" = some (.jstr d) ∧
    (∀ k ∈ flatPayloadKeys, ((buildPayload d s).lookup k).isSome = true) ∧
    (d ≠ "" → identityOf (buildPayload d s) = some (.jstr d)) := by
  refine ⟨rfl, ?_, ?_⟩
  · intro k hk
    simp only [flatPayloadKeys, List.mem_cons, List.not_mem_nil, or_false] at hk
    rcases hk with rfl | rfl | rfl | rfl | rfl | rfl | rfl | rfl | rfl | rfl | rfl |
      rfl | rfl | rfl | rfl | rfl | rfl | rfl <;> rfl
  · intro hd
    unfold identityOf
    have hl : (buildPayload d s).lookup "device_id" = some (.jstr d) := rfl
    rw [hl]
    simp [truthyJ, hd]

/-- Closed instance of `device_payload_has_identity` at device id
`vehicle_01`. -/
theorem device_payload_has_identity_witness :
    identityOf (buildPayload "vehicle_01"
        ⟨0, "", 0, 0, 0, 0, 0, 0, 0, 0, 0, 0, 0, 0, 0, "normal", 1, 0⟩) =
      some (.jstr "vehicle_01") :=
  (device_payload_has_identity "vehicle_01"
    ⟨0, "", 0, 0, 0, 0, 0, 0, 0, 0, 0, 0, 0, 0, 0, "normal", 1, 0⟩).2.2
    (by decide)

/-- The mutable state of `DetectionLabelSimulator`: `current_label` and
`label_duration`. -/
structure LabelState where
  currentLabel : String
  labelDuration : Nat
deriving DecidableEq, Repr

/-- The constructor state of `DetectionLabelSimulator`:
`current_label = "normal"`, `label_duration = 10`. -/
def initLabelState : LabelState := ⟨"normal", 10⟩

/-- `random.choice(["eyes_closed", "distracted", "smoking",
"phone_usage"])`, by choice index. -/
def pickLabel : Fin 4 → String
  | 0 => "eyes_closed"
  | 1 => "distracted"
  | 2 => "smoking"
  | 3 => "phone_usage"

/-- The random draws consumed by one `get_next_label` call: the
`random.random() < 0.9` roll, the `random.randint(3, 5)` draw (only
consumed when the label is non-normal), and the `random.choice` index
(only consumed on the 10% branch). -/
structure TickRand where
  stayRoll : Bool
  resetAfter : Nat
  pick : Fin 4
deriving DecidableEq, Repr

/-- `DetectionLabelSimulator.get_next_label` (lines 488-511), state
transition only (the returned confidence/timestamp dict entries are not
part of the label walk): with the 90% roll, a non-normal label increments
`label_duration` and resets to `normal` when the incremented duration
exceeds `randint(3, 5)`; with the 10% roll a non-normal label is chosen
and the duration reset to 0. -/
def getNextLabel (r : TickRand) (s : LabelState) : LabelState :=
  if r.stayRoll then
    if s.currentLabel ≠ "normal" then
      let d := s.labelDuration + 1
      if r.resetAfter < d then ⟨"normal", 0⟩ else ⟨s.currentLabel, d⟩
    else s
  else ⟨pickLabel r.pick, 0⟩

/-- Iterate `get_next_label` over a sequence of ticks. -/
def runLabels (s : LabelState) : List TickRand → LabelState
  | [] => s
  | r :: rest => runLabels (getNextLabel r s) rest

/-- C9: evaluation of the label walk at a failing input.  Starting from
the constructor state, one tick chooses the non-normal label
`distracted` (10% branch), then five ticks stay (90% branch) with every
`randint(3, 5)` draw equal to 5 — a legal draw.  After those five ticks
the label is still `distracted`, not `normal`: the walk does not return
to `normal` within 5 ticks of the choice (it returns only on the sixth
tick), contradicting the claimed 3–5-tick bound.  The code's own comment
("Return to normal after 3-5 seconds") documents the claimed behavior;
the `>`-comparison against the pre-incremented duration makes the actual
return window 4–6 ticks. -/
theorem label_walk_exceeds_five_ticks :
    runLabels initLabelState
        (⟨false, 3, 1⟩ :: List.replicate 5 ⟨true, 5, 0⟩) =
      ⟨"distracted", 5⟩ ∧
    ("distracted" : String) ≠ "normal" ∧
    (runLabels initLabelState
        (⟨false, 3, 1⟩ :: List.replicate 6 ⟨true, 5, 0⟩)).currentLabel =
      "normal" := by
  decide
